import Mathlib

/-!
Verification of the `my_blockchain` core against its specification.

Shallow embedding of the Python sources (`backend/wallet.py`,
`backend/transactions.py`, `backend/enhanced_block.py`, `backend/blockchain.py`,
`backend/websocket.py`) into Lean, and proofs settling the frozen claims.

Modelling conventions:

* Python numbers (`int`, `float`) become `ℚ` (exact arithmetic; the code's
  arithmetic on the claimed paths is exact: equal-share division, fee 0.001).
* A Python `dict` used as a balance map becomes a partial map
  `String → Option ℚ`; `d[k] -= v` on a missing key raises `KeyError`, which
  we model as `Option.none` results of the operation.
* SHA-256 (`hashlib.sha256(...).hexdigest()`), the canonical JSON encoder
  (`json.dumps(..., sort_keys=True)`) and ECDSA verification
  (`Wallet.verify_signature`) are external deterministic primitives; they are
  parameters of the embedding, bundled in `CryptoEnv`.  All structural claims
  are proved for every instantiation; concrete counterexamples instantiate
  them with simple total functions.
* Fallible code (uncaught Python exceptions) returns `Option`/`Except`.
-/

/- Batteries marks the rational-number operations `@[irreducible]`; the
concrete evaluations below decide goals over `ℚ`, so restore reducibility for
this file. -/
attribute [local semireducible] Rat.add Rat.sub Rat.mul Rat.inv

/-! ## Contract VM values (`backend/transactions.py`, class `SmartContract`) -/

/-- A JSON-ish value as it occurs in contract parameters and contract state. -/
inductive CVal where
  | s (v : String)
  | q (v : ℚ)
deriving DecidableEq, Repr

/-- Python truthiness of a `CVal` (`if key ...`). -/
def CVal.truthy : CVal → Bool
  | .s v => v ≠ ""
  | .q v => v ≠ 0

/-- Source: `parameters.get(k)` on the parameters dict of a contract call. -/
def pget (parameters : List (String × CVal)) (k : String) : Option CVal :=
  (parameters.find? (fun p => p.1 = k)).map (·.2)

/-- Source: `SmartContract`: mutable key/value store, internal balance, metadata. -/
structure Contract where
  contract_code : String
  creator_address : String
  contract_address : String
  state : List (CVal × CVal)
  balance : ℚ
  created_at : ℚ
deriving DecidableEq, Repr

/-- Source: `key in self.state` / `self.state[key]` on the contract store. -/
def Contract.lookupState (c : Contract) (k : CVal) : Option CVal :=
  (c.state.find? (fun p => p.1 = k)).map (·.2)

/-- Source: `self.state[key] = val` (dict update). -/
def Contract.setState (c : Contract) (k v : CVal) : Contract :=
  { c with state := (k, v) :: c.state.filter (fun p => ¬ p.1 = k) }

/-- The dict returned by `SmartContract.execute`.  Message texts are
abbreviated (the code formats dynamic f-strings; no claim inspects them). -/
structure ExecResult where
  success : Bool
  message : Option String := none
  value : Option CVal := none
  transfer : Option (Option CVal × ℚ) := none
  new_balance : Option ℚ := none
deriving DecidableEq, Repr

/-- Source: `SmartContract.execute(function_name, parameters, caller_address, value)`.

The pair's first component is the returned dict; `none` models the Python
function falling off the end and returning `None` (the `set_value` branch with
a falsy key or a missing value).  The second component is the contract after
the call (Python mutates `self`).  A `TypeError` from comparing the balance
with a string amount is caught by the `except` clause and surfaced as a
`success=False` result, as in the source. -/
def SmartContract.execute (c : Contract) (function_name : String)
    (parameters : List (String × CVal)) (caller_address : String) (value : ℚ) :
    Option ExecResult × Contract :=
  if function_name = "set_value" then
    match pget parameters "key", pget parameters "value" with
    | some k, some v =>
      if k.truthy then
        (some { success := true, message := some "Set" }, c.setState k v)
      else (none, c)
    | some _, none => (none, c)
    | none, _ => (none, c)
  else if function_name = "get_value" then
    match pget parameters "key" with
    | some k =>
      match c.lookupState k with
      | some v => (some { success := true, value := some v }, c)
      | none => (some { success := false, message := some "Key not found" }, c)
    | none => (some { success := false, message := some "Key not found" }, c)
  else if function_name = "transfer" then
    let recipient := pget parameters "recipient"
    match pget parameters "amount" with
    | some (.s _) =>
      -- `self.balance >= amount` with a string amount raises `TypeError`,
      -- caught by the except clause: success=False, no mutation.
      (some { success := false, message := some "Execution error" }, c)
    | some (.q amount) =>
      if c.balance ≥ amount ∧ amount > 0 then
        (some { success := true, message := some "Transferred",
                transfer := some (recipient, amount) },
          { c with balance := c.balance - amount })
      else
        (some { success := false, message := some "Insufficient contract balance" }, c)
    | none =>
      -- `amount = parameters.get('amount', 0)`: default 0 fails `amount > 0`.
      (some { success := false, message := some "Insufficient contract balance" }, c)
  else if function_name = "deposit" then
    (some { success := true, message := some "Deposited",
            new_balance := some (c.balance + value) },
      { c with balance := c.balance + value })
  else
    (some { success := false,
            message := some ("Function " ++ function_name ++ " not found") }, c)

/-! ## Transaction objects (`backend/wallet.py`, `backend/transactions.py`) -/

/-- Source: `SecureTransaction` (basic signed transfer).  `signature` and
`sender_public_key` are `None` until the transaction is signed. -/
structure SecureTx where
  sender : String
  recipient : String
  amount : ℚ
  timestamp : ℚ
  transaction_id : String
  signature : Option String
  sender_public_key : Option String
deriving DecidableEq, Repr

/-- Source: `MultiSigTransaction`. -/
structure MultiSigTx where
  sender_addresses : List String
  recipient : String
  amount : ℚ
  required_signatures : ℕ
  timestamp : ℚ
  transaction_id : String
  signatures : List (String × String)
  public_keys : List (String × String)
deriving DecidableEq, Repr

/-- Source: `TimeLockTransaction`. -/
structure TimeLockTx where
  sender : String
  recipient : String
  amount : ℚ
  unlock_time : ℚ
  timestamp : ℚ
  transaction_id : String
  signature : Option String
  sender_public_key : Option String
deriving DecidableEq, Repr

/-- Source: `ContractDeployTransaction` (carries the freshly built `SmartContract`). -/
structure DeployTx where
  creator_address : String
  contract_code : String
  initial_value : ℚ
  timestamp : ℚ
  transaction_id : String
  signature : Option String
  sender_public_key : Option String
  contract : Contract
deriving DecidableEq, Repr

/-- Source: `ContractCallTransaction`. -/
structure CallTx where
  caller_address : String
  contract_address : String
  function_name : String
  parameters : List (String × CVal)
  value : ℚ
  timestamp : ℚ
  transaction_id : String
  signature : Option String
  sender_public_key : Option String
deriving DecidableEq, Repr

/-- A transaction dict as it travels in JSON (block bodies, gossip payloads).
Every field is optional: `none` means the key is absent.  For the two fields
whose *presence with a null value* is observable (`'signature' in tx_data`),
the type is `Option (Option String)`: `some none` is a present null. -/
structure TxDict where
  sender : Option String := none
  recipient : Option String := none
  amount : Option ℚ := none
  timestamp : Option ℚ := none
  transaction_id : Option String := none
  signature : Option (Option String) := none
  sender_public_key : Option (Option String) := none
  type : Option String := none
  transaction_type : Option String := none
  sender_addresses : Option (List String) := none
  required_signatures : Option ℕ := none
  signatures : Option (List (String × String)) := none
  public_keys : Option (List (String × String)) := none
  unlock_time : Option ℚ := none
  creator_address : Option String := none
  contract_code : Option String := none
  initial_value : Option ℚ := none
  contract_address : Option String := none
  caller_address : Option String := none
  function_name : Option String := none
  parameters : Option (List (String × CVal)) := none
  value : Option ℚ := none
deriving DecidableEq, Repr

/-- A transaction as the chain engine sees it: either a plain dict (legacy /
genesis transactions) or one of the transaction objects.  The engine
dispatches by attribute probing (`hasattr(tx, 'transaction_type')`,
`hasattr(tx, 'sender')`); here the dispatch is on the constructor. -/
inductive Tx where
  | dictTx (d : TxDict)
  | secure (t : SecureTx)
  | multisig (t : MultiSigTx)
  | timelock (t : TimeLockTx)
  | deploy (t : DeployTx)
  | call (t : CallTx)
deriving DecidableEq, Repr

/-- Source: `to_dict` of each transaction object (a plain dict serializes to itself).
Multisig dicts carry `signatures`/`public_keys` and no `signature` key;
all singly-signed variants carry the `signature` key even when null. -/
def Tx.to_dict : Tx → TxDict
  | .dictTx d => d
  | .secure t =>
    { sender := some t.sender, recipient := some t.recipient,
      amount := some t.amount, timestamp := some t.timestamp,
      transaction_id := some t.transaction_id,
      signature := some t.signature, sender_public_key := some t.sender_public_key }
  | .multisig t =>
    { sender_addresses := some t.sender_addresses, recipient := some t.recipient,
      amount := some t.amount, timestamp := some t.timestamp,
      transaction_id := some t.transaction_id,
      required_signatures := some t.required_signatures,
      signatures := some t.signatures, public_keys := some t.public_keys,
      transaction_type := some "multisig" }
  | .timelock t =>
    { sender := some t.sender, recipient := some t.recipient,
      amount := some t.amount, timestamp := some t.timestamp,
      transaction_id := some t.transaction_id,
      signature := some t.signature, sender_public_key := some t.sender_public_key,
      unlock_time := some t.unlock_time, transaction_type := some "timelock" }
  | .deploy t =>
    { creator_address := some t.creator_address, contract_code := some t.contract_code,
      initial_value := some t.initial_value, timestamp := some t.timestamp,
      transaction_id := some t.transaction_id,
      signature := some t.signature, sender_public_key := some t.sender_public_key,
      transaction_type := some "contract_deploy",
      contract_address := some t.contract.contract_address }
  | .call t =>
    { caller_address := some t.caller_address, contract_address := some t.contract_address,
      function_name := some t.function_name, parameters := some t.parameters,
      value := some t.value, timestamp := some t.timestamp,
      transaction_id := some t.transaction_id,
      signature := some t.signature, sender_public_key := some t.sender_public_key,
      transaction_type := some "contract_call" }

/-! ## Crypto environment

`sha256(...).hexdigest()`, `json.dumps(..., sort_keys=True)` on transaction
dicts and on block headers, and ECDSA signature verification are external
deterministic primitives, taken as parameters. -/

/-- The block-header dict hashed by `EnhancedBlock.calculate_hash`. -/
structure Header where
  index : ℤ
  timestamp : ℚ
  merkle_root : String
  proof : ℤ
  previous_hash : String
  nonce : ℤ
  difficulty : ℕ
  miner_address : String
deriving DecidableEq, Repr

/-- Parameters of the embedding: `H` is `sha256(s.encode()).hexdigest()`,
`jencTx` (resp. `jencHeader`) is `json.dumps(d, sort_keys=True)` on a
transaction dict (resp. header dict), and `V content sig pem` is
`Wallet.verify_signature(content, sig, pem)` (false on any error). -/
structure CryptoEnv where
  H : String → String
  jencTx : TxDict → String
  jencHeader : Header → String
  V : TxDict → String → String → Bool

/-! ## Signature verification of each transaction variant -/

/-- The signed content dict of a `SecureTransaction` (`verify_transaction`). -/
def SecureTx.content (t : SecureTx) : TxDict :=
  { sender := some t.sender, recipient := some t.recipient, amount := some t.amount,
    timestamp := some t.timestamp, transaction_id := some t.transaction_id }

/-- Source: `SecureTransaction.verify_transaction`.  Note the order in the source: the
missing-signature guard comes *before* the `sender == "0"` special case, so an
unsigned coinbase transaction does not verify. -/
def SecureTx.verify_transaction (E : CryptoEnv) (t : SecureTx) : Bool :=
  match t.signature, t.sender_public_key with
  | some sg, some pk =>
    if t.sender = "0" then true else E.V t.content sg pk
  | _, _ => false

/-- The signed content dict of a `MultiSigTransaction`
(`sender_addresses` sorted, as in the source). -/
def MultiSigTx.content (t : MultiSigTx) : TxDict :=
  { sender_addresses := some (t.sender_addresses.mergeSort (· ≤ ·)),
    recipient := some t.recipient, amount := some t.amount,
    timestamp := some t.timestamp, transaction_id := some t.transaction_id,
    required_signatures := some t.required_signatures }

/-- Source: `MultiSigTransaction.verify_transaction`: enough signatures collected and
enough of them valid (each signer needs a matching public key on file). -/
def MultiSigTx.verify_transaction (E : CryptoEnv) (t : MultiSigTx) : Bool :=
  if t.signatures.length < t.required_signatures then false
  else
    let valid_signatures :=
      (t.signatures.filter (fun p =>
        match (t.public_keys.find? (fun q => q.1 = p.1)).map (·.2) with
        | some pk => E.V t.content p.2 pk
        | none => false)).length
    valid_signatures ≥ t.required_signatures

/-- Source: `TimeLockTransaction.is_unlocked`: `time.time() >= unlock_time`. -/
def TimeLockTx.is_unlocked (now : ℚ) (t : TimeLockTx) : Bool :=
  now ≥ t.unlock_time

/-- The content a `TimeLockTransaction` signs (inherited from
`SecureTransaction`: the five basic fields). -/
def TimeLockTx.content (t : TimeLockTx) : TxDict :=
  { sender := some t.sender, recipient := some t.recipient, amount := some t.amount,
    timestamp := some t.timestamp, transaction_id := some t.transaction_id }

/-- Source: `TimeLockTransaction.verify_transaction`: unlocked, then the inherited
secure verification. -/
def TimeLockTx.verify_transaction (E : CryptoEnv) (now : ℚ) (t : TimeLockTx) : Bool :=
  if ¬ t.is_unlocked now then false
  else
    match t.signature, t.sender_public_key with
    | some sg, some pk => if t.sender = "0" then true else E.V t.content sg pk
    | _, _ => false

/-- Signed content of a `ContractDeployTransaction`. -/
def DeployTx.content (t : DeployTx) : TxDict :=
  { creator_address := some t.creator_address, contract_code := some t.contract_code,
    initial_value := some t.initial_value, timestamp := some t.timestamp,
    transaction_id := some t.transaction_id }

/-- Source: `ContractDeployTransaction.verify_transaction`. -/
def DeployTx.verify_transaction (E : CryptoEnv) (t : DeployTx) : Bool :=
  match t.signature, t.sender_public_key with
  | some sg, some pk => E.V t.content sg pk
  | _, _ => false

/-- Signed content of a `ContractCallTransaction`. -/
def CallTx.content (t : CallTx) : TxDict :=
  { caller_address := some t.caller_address, contract_address := some t.contract_address,
    function_name := some t.function_name, parameters := some t.parameters,
    value := some t.value, timestamp := some t.timestamp,
    transaction_id := some t.transaction_id }

/-- Source: `ContractCallTransaction.verify_transaction`. -/
def CallTx.verify_transaction (E : CryptoEnv) (t : CallTx) : Bool :=
  match t.signature, t.sender_public_key with
  | some sg, some pk => E.V t.content sg pk
  | _, _ => false

/-! ## Balance state (`backend/blockchain.py`) -/

/-- The balance map `self.state`: a Python dict from address to number. -/
def BalState : Type := String → Option ℚ

/-- The deployed-contracts map `self.contracts`. -/
def Contracts : Type := String → Option Contract

/-- Source: `state.get(addr, 0)`. -/
def getBal (st : BalState) (a : String) : ℚ :=
  (st a).getD 0

/-- Dict update `state[a] = v`. -/
def setBal (st : BalState) (a : String) (v : ℚ) : BalState :=
  fun x => if x = a then some v else st x

/-- Source: `state[a] -= v`: raises `KeyError` (modelled `none`) when `a` is absent. -/
def debit (st : BalState) (a : String) (v : ℚ) : Option BalState :=
  match st a with
  | some b => some (setBal st a (b - v))
  | none => none

/-- Source: `if a not in state: state[a] = 0` followed by `state[a] += v`. -/
def credit (st : BalState) (a : String) (v : ℚ) : BalState :=
  setBal st a (getBal st a + v)

/-- Dict update `contracts[a] = c`. -/
def setContract (cts : Contracts) (a : String) (c : Contract) : Contracts :=
  fun x => if x = a then some c else cts x

/-- Source: `self.transaction_fee = 0.001`. -/
def transaction_fee : ℚ := 1 / 1000

/-! ## Transaction validation (`Blockchain._is_valid_transaction_for_state`,
`Blockchain._validate_advanced_transaction`) -/

/-- The balance checks shared by basic transactions: mining rewards are always
valid; otherwise the sender must exist, have at least `amount`, and the amount
must be positive. -/
def basicChecks (st : BalState) (sender : String) (amount : ℚ) : Bool :=
  if sender = "0" then true
  else
    match st sender with
    | none => false
    | some b => if b < amount then false else if amount ≤ 0 then false else true

/-- Source: `Blockchain._validate_advanced_transaction(transaction, state, contracts)`. -/
def validateAdvancedTransaction (E : CryptoEnv) (now : ℚ) (st : BalState)
    (cts : Contracts) : Tx → Bool
  | .multisig t =>
    if ¬ t.verify_transaction E then false
    else decide ((t.sender_addresses.map (getBal st)).sum ≥ t.amount)
  | .timelock t => t.verify_transaction E now && t.is_unlocked now
  | .deploy t =>
    if ¬ t.verify_transaction E then false
    else decide (getBal st t.creator_address ≥ t.initial_value + transaction_fee)
  | .call t =>
    if ¬ t.verify_transaction E then false
    else if (cts t.contract_address).isNone then false
    else decide (getBal st t.caller_address ≥ t.value + transaction_fee)
  | _ => false

/-- Source: `Blockchain._is_valid_transaction_for_state(transaction, state, contracts)`.
Dict transactions reach the balance checks without any signature check; a
missing `sender`/`amount` key raises `KeyError`, caught by the surrounding
`except` clause, hence `false`. -/
def isValidTransactionForState (E : CryptoEnv) (now : ℚ) (st : BalState)
    (cts : Contracts) : Tx → Bool
  | .multisig t => validateAdvancedTransaction E now st cts (.multisig t)
  | .timelock t => validateAdvancedTransaction E now st cts (.timelock t)
  | .deploy t => validateAdvancedTransaction E now st cts (.deploy t)
  | .call t => validateAdvancedTransaction E now st cts (.call t)
  | .secure t =>
    if t.sender ≠ "0" ∧ ¬ t.verify_transaction E then false
    else basicChecks st t.sender t.amount
  | .dictTx d =>
    match d.sender, d.amount with
    | some sender, some amount => basicChecks st sender amount
    | _, _ => false

/-! ## Transaction application (`Blockchain._apply_advanced_transaction`,
`Blockchain._apply_transaction_to_temp_state`;
`Blockchain._update_state_with_transaction` is line-for-line the same logic
applied to `self.state`/`self.contracts`, so it shares this embedding). -/

/-- The multisig arm of `_apply_advanced_transaction`: deduct
`amount / len(sender_addresses)` from *each listed sender*, then credit the
recipient with the full amount.  An empty sender list raises
`ZeroDivisionError`; a listed sender absent from the state raises `KeyError`
(both modelled `none`). -/
def applyMultisig (st : BalState) (t : MultiSigTx) : Option BalState := do
  if t.sender_addresses.length = 0 then none
  else
    let amount_per_sender := t.amount / (t.sender_addresses.length : ℚ)
    let st₁ ← t.sender_addresses.foldlM (fun s addr => debit s addr amount_per_sender) st
    return credit st₁ t.recipient t.amount

/-- Credit a transfer produced by the contract VM.  The VM's `to` field is
whatever `parameters.get('recipient')` returned; only string recipients live
in the string-keyed balance map (a non-string Python key never collides with
an address and is invisible to every balance read the engine performs). -/
def creditTransferTo (st : BalState) (rto : Option CVal) (amount : ℚ) : BalState :=
  match rto with
  | some (.s r) => credit st r amount
  | _ => st

/-- Source: `Blockchain._apply_transaction_to_temp_state` /
`Blockchain._update_state_with_transaction`: apply one transaction to the
balance map and contracts map.  `none` models an uncaught exception inside
the application (`KeyError` on a missing sender; `AttributeError` when the
contract VM returned `None` and the code calls `result.get`). -/
def applyTransaction (st : BalState) (cts : Contracts) :
    Tx → Option (BalState × Contracts)
  | .multisig t => (applyMultisig st t).map (fun s => (s, cts))
  | .timelock t => do
    let st₁ ← debit st t.sender t.amount
    return (credit st₁ t.recipient t.amount, cts)
  | .deploy t => do
    -- contracts[addr] = transaction.contract; the same object's balance is
    -- set to initial_value afterwards when initial_value > 0.
    let deployed :=
      if t.initial_value > 0 then { t.contract with balance := t.initial_value }
      else t.contract
    let cts₁ := setContract cts t.contract.contract_address deployed
    let st₁ ← debit st t.creator_address transaction_fee
    let st₂ ← if t.initial_value > 0 then debit st₁ t.creator_address t.initial_value
              else some st₁
    return (st₂, cts₁)
  | .call t => do
    let c ← cts t.contract_address
    let (r, c₁) := SmartContract.execute c t.function_name t.parameters
      t.caller_address t.value
    let cts₁ := setContract cts t.contract_address c₁
    let st₁ ← debit st t.caller_address (t.value + transaction_fee)
    let res ← r
    let st₂ :=
      if res.success then
        match res.transfer with
        | some (rto, amount) => creditTransferTo st₁ rto amount
        | none => st₁
      else st₁
    return (st₂, cts₁)
  | .secure t =>
    if t.sender = "0" then some (credit st t.recipient t.amount, cts)
    else do
      let st₁ ← debit st t.sender t.amount
      return (credit st₁ t.recipient t.amount, cts)
  | .dictTx d => do
    let sender ← d.sender
    let recipient ← d.recipient
    let amount ← d.amount
    if sender = "0" then return (credit st recipient amount, cts)
    else
      let st₁ ← debit st sender amount
      return (credit st₁ recipient amount, cts)

/-! ## Blocks and the Merkle root (`backend/enhanced_block.py`) -/

/-- Source: `EnhancedBlock` as a runtime object (all fields stored). -/
structure Block where
  index : ℤ
  timestamp : ℚ
  transactions : List Tx
  proof : ℤ
  previous_hash : String
  miner_address : String
  difficulty : ℕ
  nonce : ℤ
  merkle_root : String
  hash : String
deriving DecidableEq, Repr

/-- Per-transaction hash used as a Merkle leaf:
`sha256(json.dumps(tx_dict, sort_keys=True).encode()).hexdigest()` (objects
are serialized through `to_dict`, dicts directly). -/
def txLeafHash (E : CryptoEnv) (tx : Tx) : String :=
  E.H (E.jencTx tx.to_dict)

/-- One iteration of the Merkle `while` loop: duplicate the last hash if the
level has odd width, then hash adjacent pairs.  The inner `for` over complete
pairs is `merklePairs`; after padding, the width is even, so the lone-element
arm of `merklePairs` is unreachable there. -/
def merklePairs (E : CryptoEnv) : List String → List String
  | x :: y :: rest => E.H (x ++ y) :: merklePairs E rest
  | _ => []

/-- Pad-if-odd then pair: the body of one `while` iteration.  The `getD ""`
default is dead: the loop only runs on non-empty levels. -/
def merkleLevel (E : CryptoEnv) (hs : List String) : List String :=
  merklePairs E (if hs.length % 2 ≠ 0 then hs ++ [hs.getLast?.getD ""] else hs)

/-- Source: `(merklePairs hs).length = hs.length / 2`. -/
theorem merklePairs_length (E : CryptoEnv) :
    ∀ hs : List String, (merklePairs E hs).length = hs.length / 2
  | [] => by simp [merklePairs]
  | [_] => by simp [merklePairs]
  | _ :: _ :: rest => by
    simp only [merklePairs, List.length_cons, merklePairs_length E rest]
    omega

/-- Each level halves the width, rounding up. -/
theorem merkleLevel_length (E : CryptoEnv) (hs : List String) :
    (merkleLevel E hs).length = (hs.length + 1) / 2 := by
  unfold merkleLevel
  by_cases h : hs.length % 2 = 0
  · rw [if_neg (by omega), merklePairs_length]
    omega
  · rw [if_pos (by omega), merklePairs_length]
    simp only [List.length_append, List.length_cons, List.length_nil]

/-- The `while len(tx_hashes) > 1` loop of `calculate_merkle_root`, with an
explicit iteration bound so the definition reduces by kernel evaluation: each
iteration at least halves a level of width ≥ 2, so `hs.length` iterations
always suffice (`merkleLoopGo_spec` below shows the bound is never hit). -/
def merkleLoopGo (E : CryptoEnv) : ℕ → List String → List String
  | 0, hs => hs
  | fuel + 1, hs =>
    if 1 < hs.length then merkleLoopGo E fuel (merkleLevel E hs) else hs

/-- The Merkle `while` loop. -/
def merkleLoop (E : CryptoEnv) (hs : List String) : List String :=
  merkleLoopGo E hs.length hs

/-- Source: `EnhancedBlock.calculate_merkle_root` over a transaction list: empty list
hashes to `sha256(b'')`; otherwise fold levels until one hash remains. -/
def calculate_merkle_root (E : CryptoEnv) (transactions : List Tx) : String :=
  if transactions.isEmpty then E.H ""
  else ((merkleLoop E (transactions.map (txLeafHash E))).headD (E.H ""))

/-- Source: `EnhancedBlock.calculate_hash`: SHA-256 of the canonical header dict. -/
def calculate_block_hash (E : CryptoEnv) (index : ℤ) (timestamp : ℚ)
    (merkle_root : String) (proof : ℤ) (previous_hash : String) (nonce : ℤ)
    (difficulty : ℕ) (miner_address : String) : String :=
  E.H (E.jencHeader
    { index, timestamp, merkle_root, proof, previous_hash, nonce, difficulty,
      miner_address })

/-- The `EnhancedBlock` constructor: stamps `now`, `nonce = 0`, computes the
Merkle root, then the block hash. -/
def EnhancedBlock.new (E : CryptoEnv) (now : ℚ) (index : ℤ)
    (transactions : List Tx) (proof : ℤ) (previous_hash : String)
    (miner_address : String) (difficulty : ℕ) : Block :=
  let merkle_root := calculate_merkle_root E transactions
  { index, timestamp := now, transactions, proof, previous_hash, miner_address,
    difficulty, nonce := 0, merkle_root,
    hash := calculate_block_hash E index now merkle_root proof previous_hash 0
      difficulty miner_address }

/-! ## Block (de)serialization (`EnhancedBlock.to_dict` / `from_dict`) -/

/-- A block dict as it travels in JSON; `none` marks an absent key. -/
structure BlockDict where
  index : Option ℤ := none
  timestamp : Option ℚ := none
  transactions : Option (List TxDict) := none
  proof : Option ℤ := none
  previous_hash : Option String := none
  miner_address : Option String := none
  difficulty : Option ℕ := none
  nonce : Option ℤ := none
  merkle_root : Option String := none
  hash : Option String := none
  transaction_count : Option ℤ := none
deriving DecidableEq, Repr

/-- Source: `EnhancedBlock.to_dict`. -/
def Block.to_dict (b : Block) : BlockDict :=
  { index := some b.index, timestamp := some b.timestamp,
    transactions := some (b.transactions.map Tx.to_dict),
    proof := some b.proof, previous_hash := some b.previous_hash,
    miner_address := some b.miner_address, difficulty := some b.difficulty,
    nonce := some b.nonce, merkle_root := some b.merkle_root,
    hash := some b.hash,
    transaction_count := some (b.transactions.length : ℤ) }

/-- Source: `SecureTransaction.from_dict`: rebuilds a `SecureTransaction` from a dict.
`data['sender']` etc. raise `KeyError` on a missing key (modelled
`Except.error`); `data.get('signature')` returns `None` both for an absent
key and for a present null (`Option.join`). -/
def SecureTransaction.from_dict (d : TxDict) : Except Unit SecureTx := do
  let sender ← (d.sender.map Except.ok).getD (.error ())
  let recipient ← (d.recipient.map Except.ok).getD (.error ())
  let amount ← (d.amount.map Except.ok).getD (.error ())
  let timestamp ← (d.timestamp.map Except.ok).getD (.error ())
  let transaction_id ← (d.transaction_id.map Except.ok).getD (.error ())
  return { sender, recipient, amount, timestamp, transaction_id,
           signature := d.signature.join,
           sender_public_key := d.sender_public_key.join }

/-- The transaction-reconstruction loop of `EnhancedBlock.from_dict`: a dict
carrying a `signature` key becomes a `SecureTransaction`; any other dict is
kept as a plain dict (so multisig dicts, which carry `signatures` instead,
stay dicts). -/
def txFromBlockDict (d : TxDict) : Except Unit Tx :=
  if d.signature.isSome then (SecureTransaction.from_dict d).map Tx.secure
  else .ok (.dictTx d)

/-- Source: `EnhancedBlock.from_dict`.  The constructor-computed timestamp, Merkle
root and hash are overwritten by (or defaulted from) the dict entries, in the
source's order: the default Merkle root is recomputed from the reconstructed
transactions, and the default hash is computed from the header *after* the
timestamp, nonce and Merkle root overwrites. -/
def EnhancedBlock.from_dict (E : CryptoEnv) (bd : BlockDict) : Except Unit Block := do
  let txds ← (bd.transactions.map Except.ok).getD (.error ())
  let transactions ← txds.mapM txFromBlockDict
  let index ← (bd.index.map Except.ok).getD (.error ())
  let proof ← (bd.proof.map Except.ok).getD (.error ())
  let previous_hash ← (bd.previous_hash.map Except.ok).getD (.error ())
  let miner_address := bd.miner_address.getD "unknown"
  let difficulty := bd.difficulty.getD 4
  let timestamp ← (bd.timestamp.map Except.ok).getD (.error ())
  let nonce := bd.nonce.getD 0
  let merkle_root := bd.merkle_root.getD (calculate_merkle_root E transactions)
  let hash := bd.hash.getD (calculate_block_hash E index timestamp merkle_root
    proof previous_hash nonce difficulty miner_address)
  return { index, timestamp, transactions, proof, previous_hash, miner_address,
           difficulty, nonce, merkle_root, hash }

/-! ## Proof of work and difficulty (`Blockchain.valid_proof`,
`enhanced_block.DifficultyAdjustment.adjust_difficulty`) -/

/-- Source: `Blockchain.valid_proof(last_hash, proof, difficulty)`:
`sha256(f'{last_hash}{proof}').hexdigest()` must start with
`difficulty` zero characters. -/
def valid_proof (E : CryptoEnv) (last_hash : String) (proof : ℤ)
    (difficulty : ℕ) : Bool :=
  (E.H (last_hash ++ toString proof)).take difficulty
    = String.mk (List.replicate difficulty '0')

/-- The retarget window `blockchain.chain[-adjustment_interval:]`. -/
def recentWindow (adjustment_interval : ℕ) (chain : List Block) : List Block :=
  chain.drop (chain.length - adjustment_interval)

/-- Source: `time_taken = recent_blocks[-1].timestamp - recent_blocks[0].timestamp`. -/
def window_time_taken (adjustment_interval : ℕ) (chain : List Block) : ℚ :=
  (((recentWindow adjustment_interval chain).getLast?.map (·.timestamp)).getD 0)
    - (((recentWindow adjustment_interval chain).head?.map (·.timestamp)).getD 0)

/-- Source: `current_difficulty = recent_blocks[-1].difficulty` (the *last block's*
stored difficulty, not the node's `current_difficulty` attribute). -/
def window_difficulty (adjustment_interval : ℕ) (chain : List Block) : ℕ :=
  ((recentWindow adjustment_interval chain).getLast?.map (·.difficulty)).getD 4

/-- Source: `expected_time = target_block_time * (adjustment_interval - 1)`. -/
def expected_window_time (target_block_time : ℚ) (adjustment_interval : ℕ) : ℚ :=
  target_block_time * ((adjustment_interval : ℚ) - 1)

/-- Source: `DifficultyAdjustment.adjust_difficulty`: below `adjustment_interval`
blocks return the default 4; otherwise compare the window's elapsed time with
`target_block_time * (interval - 1)` and move the last block's difficulty one
step, clamped to `[min_difficulty, max_difficulty] = [1, 10]`.  The `getD`
defaults in the window readings are dead when the chain is at least
`adjustment_interval ≥ 1` long (Python would raise `IndexError` on an empty
window). -/
def adjust_difficulty (target_block_time : ℚ) (adjustment_interval : ℕ)
    (chain : List Block) : ℕ :=
  if chain.length < adjustment_interval then 4
  else
    let time_taken := window_time_taken adjustment_interval chain
    let expected_time := expected_window_time target_block_time adjustment_interval
    let current_difficulty := window_difficulty adjustment_interval chain
    if time_taken < expected_time / 2 then min (current_difficulty + 1) 10
    else if time_taken > expected_time * 2 then max (current_difficulty - 1) 1
    else current_difficulty

/-! ## Node state and the chain engine (`backend/blockchain.py`) -/

/-- The mutable core of a `Blockchain` instance: chain, mempool
(`current_transactions`), balance state, deployed contracts. -/
structure Node where
  chain : List Block
  mempool : List Tx
  state : BalState
  contracts : Contracts

/-- Left-to-right validation-and-application of a block body against a temp
copy of the state, as in the loop of `_validate_new_block` and the per-block
loop of `valid_chain`: each transaction must be valid for the state reached
so far, and its application must not raise. -/
def validateTxsAgainstTemp (E : CryptoEnv) (now : ℚ) :
    BalState → Contracts → List Tx → Bool
  | _, _, [] => true
  | st, cts, tx :: rest =>
    if isValidTransactionForState E now st cts tx then
      match applyTransaction st cts tx with
      | some (st₁, cts₁) => validateTxsAgainstTemp E now st₁ cts₁ rest
      | none => false
    else false

/-- Source: `Blockchain._validate_new_block`: index continuity, hash linkage, proof
of work, Merkle root, and replay validity of every transaction against a temp
copy of `(state, contracts)`. -/
def validate_new_block (E : CryptoEnv) (now : ℚ) (node : Node) (b : Block) : Bool :=
  if b.index ≠ (node.chain.length : ℤ) then false
  else if h : node.chain ≠ [] then
    if b.previous_hash ≠ (node.chain.getLast h).hash then false
    else if ¬ valid_proof E b.previous_hash b.proof b.difficulty then false
    else if calculate_merkle_root E b.transactions ≠ b.merkle_root then false
    else validateTxsAgainstTemp E now node.state node.contracts b.transactions
  else
    if ¬ valid_proof E b.previous_hash b.proof b.difficulty then false
    else if calculate_merkle_root E b.transactions ≠ b.merkle_root then false
    else validateTxsAgainstTemp E now node.state node.contracts b.transactions

/-- Source: `Blockchain.new_transaction(transaction_obj)` (the API admission path):
validate against the live `(state, contracts)`; on failure raise
`ValueError("Invalid transaction")` leaving the mempool untouched; on success
append to the mempool (and hand to the overlay for broadcast). -/
def Blockchain.new_transaction (E : CryptoEnv) (now : ℚ) (node : Node)
    (tx : Tx) : Except String Node :=
  if ¬ isValidTransactionForState E now node.state node.contracts tx then
    .error "Invalid transaction"
  else .ok { node with mempool := node.mempool ++ [tx] }

/-! ## Chain validation and consensus (`Blockchain.valid_chain`,
`Blockchain._rebuild_state`, `P2PNetworkManager._handle_chain_response`) -/

/-- Convert a received chain of dicts to blocks, as the conversion loop of
`valid_chain` (and the adoption assignment) does. -/
def convertChain (E : CryptoEnv) (chain_data : List BlockDict) :
    Except Unit (List Block) :=
  chain_data.mapM (EnhancedBlock.from_dict E)

/-- Seed the temp state from the genesis block's transactions: every dict
transaction tagged `type == 'genesis'` sets `state[recipient] = amount`.
A tagged dict missing `recipient`/`amount` raises `KeyError`, which is *not*
caught inside `valid_chain` (modelled `none`). -/
def seedGenesisState (txs : List Tx) : Option BalState :=
  txs.foldlM (fun st tx =>
    match tx with
    | .dictTx d =>
      if d.type = some "genesis" then
        match d.recipient, d.amount with
        | some r, some a => some (setBal st r a)
        | _, _ => none
      else some st
    | _ => some st) (fun _ => none)

/-- The transaction loop of `valid_chain` inside one block: an invalid
transaction returns `False` (outer `some none`); a raising application
escapes the whole function (outer `none`); otherwise the temp state advances
(`some (some _)`). -/
def chainBodyStep (E : CryptoEnv) (now : ℚ) :
    BalState → Contracts → List Tx → Option (Option (BalState × Contracts))
  | st, cts, [] => some (some (st, cts))
  | st, cts, tx :: rest =>
    if isValidTransactionForState E now st cts tx then
      match applyTransaction st cts tx with
      | some (st₁, cts₁) => chainBodyStep E now st₁ cts₁ rest
      | none => none
    else some none

/-- The per-block checks of `valid_chain` from index 1 on: index continuity,
hash linkage, proof of work, Merkle root, and replay validity of the body. -/
def validChainLoop (E : CryptoEnv) (now : ℚ) :
    Block → BalState → Contracts → ℕ → List Block → Option Bool
  | _, _, _, _, [] => some true
  | prev, st, cts, i, b :: rest =>
    if b.index ≠ (i : ℤ) then some false
    else if b.previous_hash ≠ prev.hash then some false
    else if ¬ valid_proof E b.previous_hash b.proof b.difficulty then some false
    else if b.merkle_root ≠ calculate_merkle_root E b.transactions then some false
    else
      match chainBodyStep E now st cts b.transactions with
      | none => none
      | some none => some false
      | some (some s) => validChainLoop E now b s.1 s.2 (i + 1) rest

/-- Source: `Blockchain.valid_chain(chain_data)`.  `some b` is a normal boolean
return; `none` models an exception escaping the function: a `KeyError` while
seeding the genesis state, or a raise out of the unguarded application of a
transaction that passed validation (e.g. a multisig `KeyError`). -/
def Blockchain.valid_chain (E : CryptoEnv) (now : ℚ)
    (chain_data : List BlockDict) : Option Bool :=
  match chain_data with
  | [] => some false
  | _ =>
    match convertChain E chain_data with
    | .error _ => some false
    | .ok [] => some false
    | .ok (genesis_block :: rest) =>
      if genesis_block.previous_hash ≠ "0" then some false
      else
        match seedGenesisState genesis_block.transactions with
        | none => none
        | some st => validChainLoop E now genesis_block st (fun _ => none) 1 rest

/-- Source: `Blockchain._rebuild_state`: clear `(state, contracts)` and re-apply every
block in order; `type == 'genesis'` dicts credit the recipient directly.  The
third component is `false` when an exception aborted the rebuild, leaving the
partially rebuilt maps in place (the caller catches and logs). -/
def Blockchain.rebuild_state (blocks : List Block) : BalState × Contracts × Bool :=
  let step := fun (acc : BalState × Contracts × Bool) (tx : Tx) =>
    match acc with
    | (st, cts, ok) =>
      if ¬ ok then (st, cts, false)
      else
        match tx with
        | .dictTx d =>
          if d.type = some "genesis" then
            match d.recipient, d.amount with
            | some r, some a => (setBal st r a, cts, true)
            | _, _ => (st, cts, false)
          else
            match applyTransaction st cts (.dictTx d) with
            | some (st₁, cts₁) => (st₁, cts₁, true)
            | none => (st, cts, false)
        | t =>
          match applyTransaction st cts t with
          | some (st₁, cts₁) => (st₁, cts₁, true)
          | none => (st, cts, false)
  (blocks.flatMap (·.transactions)).foldl step ((fun _ => none), (fun _ => none), true)

/-- Source: `P2PNetworkManager._handle_chain_response`: on a reported length strictly
greater than the local chain's and a valid chain, replace the chain and
rebuild state and contracts.  The mempool is not touched.  Any exception
(including one escaping `valid_chain`) is caught and logged. -/
def handle_chain_response (E : CryptoEnv) (now : ℚ) (node : Node)
    (peer_chain : List BlockDict) (peer_length : ℤ) : Node :=
  if (node.chain.length : ℤ) < peer_length then
    match Blockchain.valid_chain E now peer_chain with
    | some true =>
      match convertChain E peer_chain with
      | .ok bs =>
        let rebuilt := Blockchain.rebuild_state bs
        { node with chain := bs, state := rebuilt.1, contracts := rebuilt.2.1 }
      | .error _ => node
    | _ => node
  else node

/-! ## Receiving blocks from peers (`backend/websocket.py`,
`P2PNetworkManager._handle_new_block`) -/

/-- Source: `P2PNetworkManager._validate_received_block`: proof of work, Merkle root,
and — unlike `_validate_new_block` — each transaction checked against the
*same current* state (`_is_valid_transaction_for_current_state` passes no
contracts, so the advanced-transaction validator sees an empty contracts
map). -/
def validate_received_block (E : CryptoEnv) (now : ℚ) (node : Node) (b : Block) :
    Bool :=
  if ¬ valid_proof E b.previous_hash b.proof b.difficulty then false
  else if b.merkle_root ≠ calculate_merkle_root E b.transactions then false
  else b.transactions.all
    (fun tx => isValidTransactionForState E now node.state (fun _ => none) tx)

/-- The transaction ids of a mined block
(`_remove_mined_transactions`: objects contribute `transaction_id`, dicts
contribute their `'transaction_id'` entry when present). -/
def minedTxIds : List Tx → List String :=
  List.filterMap (fun tx =>
    match tx with
    | .dictTx d => d.transaction_id
    | .secure t => some t.transaction_id
    | .multisig t => some t.transaction_id
    | .timelock t => some t.transaction_id
    | .deploy t => some t.transaction_id
    | .call t => some t.transaction_id)

/-- Source: `P2PNetworkManager._remove_mined_transactions`. -/
def remove_mined_transactions (mined : List Tx) (mempool : List Tx) : List Tx :=
  let ids := minedTxIds mined
  mempool.filter (fun tx =>
    match tx with
    | .dictTx d =>
      match d.transaction_id with
      | some i => ¬ ids.contains i
      | none => true
    | .secure t => ¬ ids.contains t.transaction_id
    | .multisig t => ¬ ids.contains t.transaction_id
    | .timelock t => ¬ ids.contains t.transaction_id
    | .deploy t => ¬ ids.contains t.transaction_id
    | .call t => ¬ ids.contains t.transaction_id)

/-- The application loop of `_handle_new_block`: each transaction is
re-checked against the *live* state and applied to it in place; on the first
failing transaction the handler returns, keeping every earlier mutation and
appending nothing.  Only when every transaction applies is the block appended
and the mempool pruned. -/
def applyReceivedLoop (E : CryptoEnv) (now : ℚ) (node : Node) (b : Block) :
    List Tx → BalState → Contracts → Node
  | [], st, cts =>
    { node with
        state := st
        contracts := cts
        chain := node.chain ++ [b]
        mempool := remove_mined_transactions b.transactions node.mempool }
  | tx :: rest, st, cts =>
    if isValidTransactionForState E now st (fun _ => none) tx then
      match applyTransaction st cts tx with
      | some (st₁, cts₁) => applyReceivedLoop E now node b rest st₁ cts₁
      | none => { node with state := st, contracts := cts }
    else { node with state := st, contracts := cts }

/-- Source: `P2PNetworkManager._handle_new_block`.  A block at the local height whose
`previous_hash` matches the tip is validated and applied; a higher index only
triggers a chain request (no local mutation); anything else is dropped.  All
exceptions are caught by the handler. -/
def handle_new_block (E : CryptoEnv) (now : ℚ) (node : Node) (bd : BlockDict) :
    Node :=
  match EnhancedBlock.from_dict E bd with
  | .error _ => node
  | .ok b =>
    if b.index = (node.chain.length : ℤ) then
      match node.chain.getLast? with
      | none => node
      | some lastB =>
        if b.previous_hash = lastB.hash then
          if validate_received_block E now node b then
            applyReceivedLoop E now node b b.transactions node.state node.contracts
          else node
        else node
    else node

/-! ## Receiving transactions from peers (`backend/websocket.py`,
`P2PNetworkManager._handle_new_transaction`) -/

/-- The advertised id of an incoming gossiped transaction:
`getattr(tx, 'transaction_id', None) or tx_data.get('transaction_id', str(tx))`.
`none` models Python `None`; the `str(tx)` default (only reached when the
dict has no `transaction_id` key) is an opaque repr, modelled by a fixed
placeholder — no claim exercises it. -/
def gossip_tx_id (tx : Tx) (td : TxDict) : Option String :=
  let objId : Option String :=
    match tx with
    | .dictTx _ => none
    | .secure t => some t.transaction_id
    | .multisig t => some t.transaction_id
    | .timelock t => some t.transaction_id
    | .deploy t => some t.transaction_id
    | .call t => some t.transaction_id
  match objId with
  | some i => if i = "" then some (td.transaction_id.getD "repr") else some i
  | none => some (td.transaction_id.getD "repr")

/-- The id under which a mempool entry is compared for deduplication. -/
def mempool_entry_id (tx : Tx) : Option String :=
  match tx with
  | .dictTx d => d.transaction_id
  | .secure t => if t.transaction_id = "" then some "repr" else some t.transaction_id
  | .multisig t => if t.transaction_id = "" then some "repr" else some t.transaction_id
  | .timelock t => if t.transaction_id = "" then some "repr" else some t.transaction_id
  | .deploy t => if t.transaction_id = "" then some "repr" else some t.transaction_id
  | .call t => if t.transaction_id = "" then some "repr" else some t.transaction_id

/-- Source: `P2PNetworkManager._handle_new_transaction`: reconstruct the transaction
object, skip when its id is already in the mempool, then *append to the
mempool without any validity check*.  The reconstruction dispatch calls
`MultiSigTransaction.from_dict` etc., all of which resolve to the inherited
`SecureTransaction.from_dict` staticmethod (none of the subclasses overrides
it); a reconstruction error drops the message. -/
def handle_new_transaction (node : Node) (td : TxDict) : Node :=
  let recon : Except Unit Tx :=
    match td.transaction_type with
    | some "multisig" => (SecureTransaction.from_dict td).map Tx.secure
    | some "timelock" => (SecureTransaction.from_dict td).map Tx.secure
    | some "contract_deploy" => (SecureTransaction.from_dict td).map Tx.secure
    | some "contract_call" => (SecureTransaction.from_dict td).map Tx.secure
    | _ =>
      if td.signature.isSome ∧ td.sender_public_key.isSome then
        (SecureTransaction.from_dict td).map Tx.secure
      else .ok (.dictTx td)
  match recon with
  | .error _ => node
  | .ok tx =>
    if (node.mempool.map mempool_entry_id).contains (gossip_tx_id tx td) then node
    else { node with mempool := node.mempool ++ [tx] }

/-! ## Gossip deduplication (`backend/websocket.py`,
`P2PNetworkManager._process_message`) -/

/-- The envelope fields `_process_message` inspects. -/
structure P2PMessage where
  type : String
  sender_id : String
  message_id : String
deriving DecidableEq, Repr

/-- The keys of `self.message_handlers`. -/
def message_handler_types : List String :=
  ["transaction", "block", "new_transaction", "new_block", "peer_discovery",
   "chain_request", "chain_response", "ping", "pong"]

/-- Source: `self.seen_messages` (a set; list membership models `in`). -/
structure NetState where
  seen_messages : List String

/-- Source: `P2PNetworkManager._process_message`, abstracted to the observable
events: the returned flags say whether a message handler was invoked and
whether `_gossip_message` (forwarding to peers) was invoked.  A message whose
`message_id` is already in `seen_messages` returns before either. -/
def process_message (ns : NetState) (m : P2PMessage) : NetState × Bool × Bool :=
  if m.message_id ∈ ns.seen_messages then (ns, false, false)
  else ({ seen_messages := m.message_id :: ns.seen_messages },
    message_handler_types.contains m.type, true)

/-- The per-envelope `(handled, forwarded)` flags over a sequence of received
envelopes, threading `seen_messages` through `_process_message`. -/
def process_trace (ns : NetState) : List P2PMessage → List (Bool × Bool)
  | [] => []
  | m :: rest =>
    let r := process_message ns m
    (r.2.1, r.2.2) :: process_trace r.1 rest

/-! ## Spec-side Merkle definition (for the refinement claim C8)

Modelled from the spec's words: "the standard pairwise SHA-256 Merkle tree
over the per-transaction SHA-256 hashes of the canonical transaction
encodings, duplicating the last hash at each level of odd width; for a block
with an empty transaction list the root is sha256(\"\")". -/

/-- One spec-side Merkle level: hash adjacent pairs, duplicating the lone
last hash of an odd-width level. -/
def specMerkleLevel (E : CryptoEnv) : List String → List String
  | [] => []
  | [x] => [E.H (x ++ x)]
  | x :: y :: rest => E.H (x ++ y) :: specMerkleLevel E rest

/-- A spec-side level also halves the width, rounding up. -/
theorem specMerkleLevel_length (E : CryptoEnv) :
    ∀ hs : List String, (specMerkleLevel E hs).length = (hs.length + 1) / 2
  | [] => by simp [specMerkleLevel]
  | [_] => by simp [specMerkleLevel]
  | _ :: _ :: rest => by
    simp only [specMerkleLevel, List.length_cons, specMerkleLevel_length E rest]
    omega

/-- The spec-side Merkle root of a list of leaf hashes. -/
def specMerkleRoot (E : CryptoEnv) : List String → String
  | [] => E.H ""
  | [h] => h
  | x :: y :: rest => specMerkleRoot E (specMerkleLevel E (x :: y :: rest))
termination_by hs => hs.length
decreasing_by simp only [specMerkleLevel_length]; simp; omega

/-- The spec-side Merkle root of a block body: per-transaction hashes as
leaves. -/
def specMerkleRootOfTxs (E : CryptoEnv) (transactions : List Tx) : String :=
  specMerkleRoot E (transactions.map (txLeafHash E))

/-- The implementation's pad-then-pair level equals the spec's recursive
level, on every width. -/
theorem merkleLevel_eq_spec (E : CryptoEnv) :
    ∀ hs : List String, merkleLevel E hs = specMerkleLevel E hs
  | [] => by simp [merkleLevel, merklePairs, specMerkleLevel]
  | [x] => by simp [merkleLevel, merklePairs, specMerkleLevel]
  | x :: y :: rest => by
    have ih := merkleLevel_eq_spec E rest
    have hmod : (x :: y :: rest).length % 2 = rest.length % 2 := by
      simp only [List.length_cons]
      omega
    have hpad : (if (x :: y :: rest).length % 2 ≠ 0 then
        (x :: y :: rest) ++ [(x :: y :: rest).getLast?.getD ""]
        else (x :: y :: rest))
        = x :: y :: (if rest.length % 2 ≠ 0 then
            rest ++ [rest.getLast?.getD ""] else rest) := by
      by_cases hodd : rest.length % 2 = 0
      · rw [if_neg (by rw [hmod]; omega), if_neg (by omega)]
      · rw [if_pos (by rw [hmod]; omega), if_pos (by omega)]
        cases rest with
        | nil => exact absurd rfl hodd
        | cons r rs => simp [List.getLast?_cons_cons]
    unfold merkleLevel at ih ⊢
    rw [hpad]
    simp only [merklePairs, specMerkleLevel, ih]

/-- The bounded loop, given enough fuel, computes the spec-side root
(`tx_hashes[0]` after the loop). -/
theorem merkleLoopGo_spec (E : CryptoEnv) :
    ∀ (fuel : ℕ) (hs : List String), hs ≠ [] → hs.length ≤ fuel + 1 →
      (merkleLoopGo E fuel hs).headD (E.H "") = specMerkleRoot E hs := by
  intro fuel
  induction fuel with
  | zero =>
    intro hs hne hlen
    match hs, hne, hlen with
    | [x], _, _ => simp [merkleLoopGo, specMerkleRoot]
  | succ fuel ih =>
    intro hs hne hlen
    match hs with
    | [x] => simp [merkleLoopGo, specMerkleRoot]
    | x :: y :: rest =>
      have hlev := merkleLevel_length E (x :: y :: rest)
      have hloop : merkleLoopGo E (fuel + 1) (x :: y :: rest)
          = merkleLoopGo E fuel (merkleLevel E (x :: y :: rest)) := by
        show (if 1 < (x :: y :: rest).length then
            merkleLoopGo E fuel (merkleLevel E (x :: y :: rest))
          else (x :: y :: rest)) = _
        rw [if_pos (by simp)]
      have hne₂ : merkleLevel E (x :: y :: rest) ≠ [] := by
        intro hc
        rw [hc] at hlev
        simp at hlev
        omega
      rw [hloop, ih (merkleLevel E (x :: y :: rest)) hne₂ (by
        rw [hlev]
        simp only [List.length_cons] at hlen ⊢
        omega), merkleLevel_eq_spec]
      conv_rhs => rw [specMerkleRoot]

/-- The `while` loop, started on a non-empty level, computes the spec-side
root. -/
theorem merkleLoop_headD (E : CryptoEnv) (hs : List String) (hne : hs ≠ []) :
    (merkleLoop E hs).headD (E.H "") = specMerkleRoot E hs :=
  merkleLoopGo_spec E hs.length hs hne (by omega)

/-! ## Concrete instantiations used by witnesses and counterexamples

The structural theorems below hold for every `CryptoEnv`; the concrete
evaluations instantiate the external primitives with simple total functions
(the claimed behaviours on these inputs do not depend on hash or signature
values: difficulty-0 proofs accept every hash, and the exercised dict
transactions undergo no signature check). -/

/-- Constant-hash environment with universally accepting verification. -/
def E0 : CryptoEnv :=
  { H := fun _ => "", jencTx := fun _ => "", jencHeader := fun _ => "",
    V := fun _ _ _ => true }

/-- Constant-hash environment with universally rejecting verification. -/
def E1 : CryptoEnv :=
  { H := fun _ => "", jencTx := fun _ => "", jencHeader := fun _ => "",
    V := fun _ _ _ => false }

/-- An unsigned coinbase transaction, as `/mine` builds it:
`SecureTransaction("0", node_id, 1)` with no wallet, hence no signature. -/
def coinbaseTx : SecureTx :=
  { sender := "0", recipient := "miner", amount := 1, timestamp := 0,
    transaction_id := "cb", signature := none, sender_public_key := none }

/-- A sample contract with empty store and zero balance. -/
def sampleContract : Contract :=
  { contract_code := "code", creator_address := "cr", contract_address := "ad",
    state := [], balance := 0, created_at := 0 }

/-- Balances for the multisig scenario: A, B, C each hold 100. -/
def msState : BalState :=
  fun a => if a = "aa" then some 100 else if a = "bb" then some 100
    else if a = "cc" then some 100 else none

/-- Source: `multisig({A,B,C} -> D, 60, required=2)` of the claimed scenario. -/
def msW : MultiSigTx :=
  { sender_addresses := ["aa", "bb", "cc"], recipient := "dd", amount := 60,
    required_signatures := 2, timestamp := 0, transaction_id := "tm",
    signatures := [], public_keys := [] }

/-- A local genesis tip whose stored hash is `""` (matching `E0`). -/
def gBlock0 : Block :=
  { index := 0, timestamp := 0, transactions := [], proof := 100,
    previous_hash := "0", miner_address := "genesis", difficulty := 0,
    nonce := 0, merkle_root := "", hash := "" }

/-- Local node for the peer-block scenario: only `"xx"` holds 10. -/
def nodeC2 : Node :=
  { chain := [gBlock0], mempool := [],
    state := fun a => if a = "xx" then some 10 else none,
    contracts := fun _ => none }

/-- First transaction of the received block: spends the full balance of
`"xx"`. -/
def tx1C2 : TxDict :=
  { sender := some "xx", recipient := some "yy", amount := some 10,
    timestamp := some 1, transaction_id := some "t1" }

/-- Second transaction of the received block: spends the same balance again
(valid against the pre-block state, invalid after the first is applied). -/
def tx2C2 : TxDict :=
  { sender := some "xx", recipient := some "zz", amount := some 10,
    timestamp := some 1, transaction_id := some "t2" }

/-- The received block dict: correct height, linkage, proof (difficulty 0)
and Merkle root under `E0`, with the two conflicting transactions. -/
def bdC2 : BlockDict :=
  { index := some 1, timestamp := some 1, transactions := some [tx1C2, tx2C2],
    proof := some 7, previous_hash := some "", miner_address := some "m",
    difficulty := some 0, nonce := some 0, merkle_root := some "",
    hash := some "hb1" }

/-- A gossiped basic-transaction dict whose sender holds no balance at all. -/
def txdC3 : TxDict :=
  { sender := some "aa", recipient := some "bb", amount := some 5,
    timestamp := some 0, transaction_id := some "t3",
    signature := some (some "sg"), sender_public_key := some (some "pk") }

/-- The object `_handle_new_transaction` reconstructs from `txdC3`. -/
def stxC3 : SecureTx :=
  { sender := "aa", recipient := "bb", amount := 5, timestamp := 0,
    transaction_id := "t3", signature := some "sg",
    sender_public_key := some "pk" }

/-- Node for the gossip-admission scenario: empty state, empty mempool. -/
def nodeC3 : Node :=
  { chain := [gBlock0], mempool := [], state := fun _ => none,
    contracts := fun _ => none }

/-- Genesis pseudo-transaction of the peer chain (credits `"gg"`). -/
def genTxC4 : TxDict :=
  { sender := some "0", recipient := some "gg", amount := some 1000,
    timestamp := some 0, type := some "genesis" }

/-- Peer genesis block dict (previous hash `"0"`, stored hash `""`). -/
def gBdC4 : BlockDict :=
  { index := some 0, timestamp := some 0, transactions := some [genTxC4],
    proof := some 100, previous_hash := some "0",
    miner_address := some "genesis", difficulty := some 0, nonce := some 0,
    merkle_root := some "", hash := some "" }

/-- The peer chain's second block: mines transaction `"t1"`. -/
def tx1C4 : TxDict :=
  { sender := some "gg", recipient := some "bb", amount := some 10,
    timestamp := some 1, transaction_id := some "t1" }

/-- Second peer block dict, linked to the genesis by its stored hash. -/
def b1C4 : BlockDict :=
  { index := some 1, timestamp := some 1, transactions := some [tx1C4],
    proof := some 7, previous_hash := some "", miner_address := some "m",
    difficulty := some 0, nonce := some 0, merkle_root := some "",
    hash := some "h1" }

/-- The peer's full chain (length 2, valid under `E0`). -/
def peerChainC4 : List BlockDict := [gBdC4, b1C4]

/-- The blocks `EnhancedBlock.from_dict` reconstructs from `peerChainC4`. -/
def bsC4 : List Block :=
  [{ index := 0, timestamp := 0, transactions := [.dictTx genTxC4], proof := 100,
     previous_hash := "0", miner_address := "genesis", difficulty := 0,
     nonce := 0, merkle_root := "", hash := "" },
   { index := 1, timestamp := 1, transactions := [.dictTx tx1C4], proof := 7,
     previous_hash := "", miner_address := "m", difficulty := 0, nonce := 0,
     merkle_root := "", hash := "h1" }]

/-- A mempool entry with the same `transaction_id` as the mined `tx1C4`:
after adoption it is invalidated (already included on chain). -/
def mempoolTxC4 : TxDict :=
  { sender := some "gg", recipient := some "bb", amount := some 10,
    timestamp := some 1, transaction_id := some "t1" }

/-- Local node of length 1 holding the invalidated mempool entry. -/
def nodeC4 : Node :=
  { chain := [gBlock0], mempool := [.dictTx mempoolTxC4],
    state := fun a => if a = "gg" then some 1000 else none,
    contracts := fun _ => none }

/-- A concrete multisig transaction for the round-trip counterexample. -/
def msTxC9 : MultiSigTx :=
  { sender_addresses := ["aa"], recipient := "bb", amount := 5,
    required_signatures := 1, timestamp := 0, transaction_id := "tc9",
    signatures := [], public_keys := [] }

/-- A block containing a multisig transaction object. -/
def blockC9 : Block :=
  { index := 1, timestamp := 0, transactions := [.multisig msTxC9], proof := 7,
    previous_hash := "p", miner_address := "m", difficulty := 4, nonce := 0,
    merkle_root := "mr", hash := "hh" }

/-- A block whose body round-trips: one signed basic transaction and one
plain dict transaction without a `signature` key. -/
def blockW9 : Block :=
  { index := 2, timestamp := 3, transactions :=
      [.secure stxC3, .dictTx genTxC4], proof := 9,
    previous_hash := "q", miner_address := "m", difficulty := 4, nonce := 0,
    merkle_root := "mr2", hash := "hh2" }

/-- A transaction object survives `to_dict`/`from_dict` unchanged exactly when
it is a basic `SecureTransaction` or a plain dict without a `signature`
key. -/
def roundTrippable : Tx → Bool
  | .secure _ => true
  | .dictTx d => d.signature.isNone
  | _ => false

/-- Blocks of the difficulty-retarget witness: five blocks mined instantly
(window elapsed time 0 < expected/2), last difficulty 4. -/
def fastChain : List Block :=
  [{ gBlock0 with index := 0 }, { gBlock0 with index := 1 },
   { gBlock0 with index := 2 }, { gBlock0 with index := 3 },
   { gBlock0 with index := 4, difficulty := 4 }]

/-- The claim text of C5 as a predicate: `verify()` true iff coinbase or a
passing present signature. -/
def claimC5 (E : CryptoEnv) (t : SecureTx) : Prop :=
  t.verify_transaction E = true ↔
    (t.sender = "0" ∨ ∃ sg pk, t.signature = some sg ∧
      t.sender_public_key = some pk ∧ E.V t.content sg pk = true)

/-- Two gossip envelopes sharing one `message_id`. -/
def msgA : P2PMessage :=
  { type := "ping", sender_id := "n1", message_id := "mid1" }

/-- A second envelope with the same `message_id` as `msgA`. -/
def msgB : P2PMessage :=
  { type := "new_block", sender_id := "n2", message_id := "mid1" }

/-! ## Claim C5 — basic-transaction verification -/

/-- C5, counterexample: `/mine`'s unsigned coinbase has `sender = "0"`, so the
claim asserts `verify() = true`; the source's missing-signature guard runs
first and returns `False`. -/
theorem unsigned_coinbase_fails_claim : ¬ claimC5 E1 coinbaseTx := by
  intro h
  have hv := h.mpr (Or.inl rfl)
  exact absurd hv (by decide)

/-- C5, amended: `verify()` is true iff a signature *and* an embedded public
key are present, and then either the sender is the coinbase sentinel `"0"` or
ECDSA verification of the canonical content passes.  (The claim's original
form fails on unsigned coinbase transactions: the missing-signature guard
precedes the `sender == "0"` special case.) -/
theorem secure_verify_iff (E : CryptoEnv) (t : SecureTx) :
    t.verify_transaction E = true ↔
      ∃ sg pk, t.signature = some sg ∧ t.sender_public_key = some pk ∧
        (t.sender = "0" ∨ E.V t.content sg pk = true) := by
  unfold SecureTx.verify_transaction
  cases hs : t.signature with
  | none => simp [hs]
  | some sg =>
    cases hp : t.sender_public_key with
    | none => simp [hs, hp]
    | some pk =>
      by_cases h0 : t.sender = "0" <;> simp [hs, hp, h0]

/-! ## Claim C6 — the contract VM's result shape -/

/-- C6, counterexample: `execute("set_value", {}, ...)` falls off the end of
the Python function and returns `None` — no record with a `success` field. -/
theorem set_value_returns_no_record :
    (SmartContract.execute sampleContract "set_value" [] "caller" 0).1 = none := by
  decide

/-- C6, amended: `execute` returns a `success` record for every invocation
*except* `set_value` with a falsy/missing key or a missing value, which
returns no record (and leaves the contract unchanged); an unknown function
name yields `success = false` with a message and no mutation; and every
`success = false` result leaves the contract unchanged. -/
theorem contract_execute_behaviour (c : Contract) (fn : String)
    (params : List (String × CVal)) (caller : String) (value : ℚ) :
    ((SmartContract.execute c fn params caller value).1 = none →
      fn = "set_value" ∧ (SmartContract.execute c fn params caller value).2 = c)
  ∧ (fn ∉ (["set_value", "get_value", "transfer", "deposit"] : List String) →
      ∃ m, (SmartContract.execute c fn params caller value).1 =
          some { success := false, message := some m }
        ∧ (SmartContract.execute c fn params caller value).2 = c)
  ∧ (∀ res, (SmartContract.execute c fn params caller value).1 = some res →
      res.success = false → (SmartContract.execute c fn params caller value).2 = c) := by
  simp only [SmartContract.execute]
  split_ifs with hsv hgv htr hdp
  · -- fn = "set_value"
    cases hk : pget params "key" with
    | none =>
      try dsimp only
      exact ⟨fun _ => ⟨hsv, by trivial⟩, fun hmem => absurd (by simp [hsv]) hmem,
        fun res hres => by simp at hres⟩
    | some k =>
      try dsimp only
      cases hv : pget params "value" with
      | none =>
        try dsimp only
        exact ⟨fun _ => ⟨hsv, by trivial⟩, fun hmem => absurd (by simp [hsv]) hmem,
          fun res hres => by simp at hres⟩
      | some v =>
        try dsimp only
        by_cases ht : k.truthy
        · simp only [if_pos ht]
          exact ⟨fun hc => by simp at hc, fun hmem => absurd (by simp [hsv]) hmem,
            fun res hres hfail => by cases Option.some.inj hres; simp at hfail⟩
        · simp only [if_neg ht]
          exact ⟨fun _ => ⟨hsv, by trivial⟩, fun hmem => absurd (by simp [hsv]) hmem,
            fun res hres => by simp at hres⟩
  · -- fn = "get_value"
    cases hk : pget params "key" with
    | none =>
      try dsimp only
      exact ⟨fun hc => by simp at hc, fun hmem => absurd (by simp [hgv]) hmem,
        fun _ _ _ => by trivial⟩
    | some k =>
      try dsimp only
      cases hl : c.lookupState k with
      | some v =>
        try dsimp only
        exact ⟨fun hc => by simp at hc, fun hmem => absurd (by simp [hgv]) hmem,
          fun res hres hfail => by cases Option.some.inj hres; simp at hfail⟩
      | none =>
        try dsimp only
        exact ⟨fun hc => by simp at hc, fun hmem => absurd (by simp [hgv]) hmem,
          fun _ _ _ => by trivial⟩
  · -- fn = "transfer"
    cases ha : pget params "amount" with
    | none =>
      try dsimp only
      exact ⟨fun hc => by simp at hc, fun hmem => absurd (by simp [htr]) hmem,
        fun _ _ _ => by trivial⟩
    | some a =>
      try dsimp only
      cases a with
      | s sv =>
        try dsimp only
        exact ⟨fun hc => by simp at hc, fun hmem => absurd (by simp [htr]) hmem,
          fun _ _ _ => by trivial⟩
      | q qv =>
        try dsimp only
        by_cases hok : c.balance ≥ qv ∧ qv > 0
        · simp only [if_pos hok]
          exact ⟨fun hc => by simp at hc, fun hmem => absurd (by simp [htr]) hmem,
            fun res hres hfail => by cases Option.some.inj hres; simp at hfail⟩
        · simp only [if_neg hok]
          exact ⟨fun hc => by simp at hc, fun hmem => absurd (by simp [htr]) hmem,
            fun _ _ _ => by trivial⟩
  · -- fn = "deposit"
    exact ⟨fun hc => by simp at hc, fun hmem => absurd (by simp [hdp]) hmem,
      fun res hres hfail => by cases Option.some.inj hres; simp at hfail⟩
  · -- unknown function name
    exact ⟨fun hc => by simp at hc, fun _ => ⟨"Function " ++ fn ++ " not found", rfl, rfl⟩,
      fun _ _ _ => by trivial⟩

/-- C6, witness: an unknown function name on the sample contract yields a
failure record and no mutation. -/
theorem contract_execute_behaviour_witness :
    ("nope" ∉ (["set_value", "get_value", "transfer", "deposit"] : List String))
    ∧ ∃ m, (SmartContract.execute sampleContract "nope" [] "caller" 0).1 =
        some { success := false, message := some m }
      ∧ (SmartContract.execute sampleContract "nope" [] "caller" 0).2 = sampleContract :=
  ⟨by decide,
    (contract_execute_behaviour sampleContract "nope" [] "caller" 0).2.1 (by decide)⟩

/-! ## Claim C8 — the stored Merkle root matches the spec tree -/

/-- C8: for every constructed block, the stored `merkle_root` is the spec's
pairwise Merkle tree over the per-transaction hashes, with last-hash
duplication at odd widths and `sha256("")` for the empty body. -/
theorem merkle_root_matches_spec (E : CryptoEnv) (now : ℚ) (index : ℤ)
    (transactions : List Tx) (proof : ℤ) (previous_hash miner_address : String)
    (difficulty : ℕ) :
    (EnhancedBlock.new E now index transactions proof previous_hash
      miner_address difficulty).merkle_root = specMerkleRootOfTxs E transactions := by
  show calculate_merkle_root E transactions = _
  unfold calculate_merkle_root specMerkleRootOfTxs
  cases transactions with
  | nil => simp [specMerkleRoot]
  | cons t ts =>
    rw [if_neg (by simp)]
    exact merkleLoop_headD E _ (by simp)

/-! ## Claim C1 — multisig application debits every listed sender -/

/-- Debiting a duplicate-free list of present senders succeeds and subtracts
the per-sender amount from each of them, leaving every other address
untouched. -/
theorem foldlM_debit_eq (amt : ℚ) :
    ∀ (S : List String) (st : BalState), S.Nodup →
      (∀ a ∈ S, (st a).isSome) →
      ∃ st', S.foldlM (fun s addr => debit s addr amt) st = some st' ∧
        (∀ a ∈ S, st' a = some (getBal st a - amt)) ∧
        (∀ x, x ∉ S → st' x = st x)
  | [], st, _, _ => ⟨st, rfl, by simp, fun _ _ => rfl⟩
  | a :: S, st, hnd, hpres => by
    obtain ⟨b, hb⟩ := Option.isSome_iff_exists.mp (hpres a (List.mem_cons_self a S))
    have hdeb : debit st a amt = some (setBal st a (b - amt)) := by
      unfold debit
      rw [hb]
    have hanot : a ∉ S := (List.nodup_cons.mp hnd).1
    have hpres' : ∀ x ∈ S, ((setBal st a (b - amt)) x).isSome := by
      intro x hx
      unfold setBal
      by_cases hxa : x = a
      · simp [hxa]
      · simp only [if_neg hxa]
        exact hpres x (List.mem_cons_of_mem _ hx)
    obtain ⟨st', hfold, hmem, hout⟩ :=
      foldlM_debit_eq amt S (setBal st a (b - amt)) (List.nodup_cons.mp hnd).2 hpres'
    refine ⟨st', ?_, ?_, ?_⟩
    · rw [List.foldlM_cons, hdeb]
      exact hfold
    · intro c hc
      rcases List.mem_cons.mp hc with hca | hcS
      · subst hca
        rw [hout c hanot]
        unfold setBal getBal
        rw [if_pos rfl, hb]
        rfl
      · have hca : c ≠ a := fun h => hanot (h ▸ hcS)
        rw [hmem c hcS]
        unfold getBal setBal
        rw [if_neg hca]
    · intro x hx
      have hxa : x ≠ a := fun h => hx (h ▸ List.mem_cons_self a S)
      rw [hout x (fun h => hx (List.mem_cons_of_mem _ h)), setBal, if_neg hxa]

/-- C1: applying a multisig transaction whose listed senders are distinct,
present in the state, and do not include the recipient deducts
`amount / len(sender_addresses)` from *every* listed sender (signer or not),
credits the recipient with the full amount, and touches nothing else. -/
theorem multisig_apply_equal_share (st : BalState) (t : MultiSigTx)
    (hne : t.sender_addresses ≠ [])
    (hnd : t.sender_addresses.Nodup)
    (hrec : t.recipient ∉ t.sender_addresses)
    (hpres : ∀ a ∈ t.sender_addresses, (st a).isSome) :
    ∃ st', applyMultisig st t = some st' ∧
      (∀ a ∈ t.sender_addresses,
        st' a = some (getBal st a - t.amount / (t.sender_addresses.length : ℚ))) ∧
      st' t.recipient = some (getBal st t.recipient + t.amount) ∧
      (∀ x, x ∉ t.sender_addresses → x ≠ t.recipient → st' x = st x) := by
  obtain ⟨st₁, hfold, hmem, hout⟩ :=
    foldlM_debit_eq (t.amount / (t.sender_addresses.length : ℚ))
      t.sender_addresses st hnd hpres
  refine ⟨credit st₁ t.recipient t.amount, ?_, ?_, ?_, ?_⟩
  · unfold applyMultisig
    rw [if_neg (fun h => hne (List.length_eq_zero.mp h))]
    dsimp only
    rw [hfold]
    rfl
  · intro a ha
    have har : a ≠ t.recipient := fun h => hrec (h ▸ ha)
    unfold credit setBal
    rw [if_neg har]
    exact hmem a ha
  · unfold credit setBal getBal
    rw [if_pos rfl, hout t.recipient hrec]
  · intro x hx hxr
    unfold credit setBal
    rw [if_neg hxr]
    exact hout x hx

/-- C1, witness: the claimed scenario `multisig({A,B,C} -> D, 60)` on balances
of 100 each: every hypothesis holds, the evaluation debits each sender by 20
and credits D by 60, and the theorem applies. -/
theorem multisig_apply_equal_share_witness :
    (msW.sender_addresses ≠ [] ∧ msW.sender_addresses.Nodup ∧
      msW.recipient ∉ msW.sender_addresses ∧
      ∀ a ∈ msW.sender_addresses, (msState a).isSome)
    ∧ (applyMultisig msState msW).map
        (fun s => (s "aa", s "bb", s "cc", s "dd"))
        = some (some 80, some 80, some 80, some 60)
    ∧ ∃ st', applyMultisig msState msW = some st' ∧
        (∀ a ∈ msW.sender_addresses,
          st' a = some (getBal msState a
            - msW.amount / (msW.sender_addresses.length : ℚ))) ∧
        st' msW.recipient = some (getBal msState msW.recipient + msW.amount) ∧
        (∀ x, x ∉ msW.sender_addresses → x ≠ msW.recipient → st' x = msState x) :=
  ⟨⟨by decide, by decide, by decide, by decide⟩, by decide,
    multisig_apply_equal_share msState msW (by decide) (by decide) (by decide)
      (by decide)⟩

/-! ## Claim C7 — difficulty retargeting -/

/-- C7: when a full adjustment window exists and the old (last block's)
difficulty lies in `[1, 10]`, the retarget moves it one step towards the
elapsed time — one more (clamped at 10) when the window ran in under half the
expected time, one less (clamped at 1) when it ran over double, unchanged
otherwise — and the result always lies in `[1, 10]`.  The slow case is
conditioned on the fast test failing, mirroring the source's `elif`. -/
theorem difficulty_retarget (target_block_time : ℚ) (adjustment_interval : ℕ)
    (chain : List Block)
    (hwin : adjustment_interval ≤ chain.length)
    (hlo : 1 ≤ window_difficulty adjustment_interval chain)
    (hhi : window_difficulty adjustment_interval chain ≤ 10) :
    ((window_time_taken adjustment_interval chain
        < expected_window_time target_block_time adjustment_interval / 2 →
      adjust_difficulty target_block_time adjustment_interval chain
          = min (window_difficulty adjustment_interval chain + 1) 10
        ∧ window_difficulty adjustment_interval chain
          ≤ adjust_difficulty target_block_time adjustment_interval chain)
    ∧ (¬ window_time_taken adjustment_interval chain
        < expected_window_time target_block_time adjustment_interval / 2 →
      window_time_taken adjustment_interval chain
        > expected_window_time target_block_time adjustment_interval * 2 →
      adjust_difficulty target_block_time adjustment_interval chain
          = max (window_difficulty adjustment_interval chain - 1) 1
        ∧ adjust_difficulty target_block_time adjustment_interval chain
          ≤ window_difficulty adjustment_interval chain)
    ∧ (¬ window_time_taken adjustment_interval chain
        < expected_window_time target_block_time adjustment_interval / 2 →
      ¬ window_time_taken adjustment_interval chain
        > expected_window_time target_block_time adjustment_interval * 2 →
      adjust_difficulty target_block_time adjustment_interval chain
        = window_difficulty adjustment_interval chain))
    ∧ 1 ≤ adjust_difficulty target_block_time adjustment_interval chain
    ∧ adjust_difficulty target_block_time adjustment_interval chain ≤ 10 := by
  unfold adjust_difficulty
  rw [if_neg (by omega)]
  dsimp only
  by_cases hfast : window_time_taken adjustment_interval chain
      < expected_window_time target_block_time adjustment_interval / 2
  · rw [if_pos hfast]
    exact ⟨⟨fun _ => ⟨rfl, by omega⟩, fun hnf => absurd hfast hnf,
      fun hnf _ => absurd hfast hnf⟩, by omega, by omega⟩
  · rw [if_neg hfast]
    by_cases hslow : window_time_taken adjustment_interval chain
        > expected_window_time target_block_time adjustment_interval * 2
    · rw [if_pos hslow]
      exact ⟨⟨fun hf => absurd hf hfast, fun _ _ => ⟨rfl, by omega⟩,
        fun _ hns => absurd hslow hns⟩, by omega, by omega⟩
    · rw [if_neg hslow]
      exact ⟨⟨fun hf => absurd hf hfast, fun _ hs => absurd hs hslow,
        fun _ _ => rfl⟩, by omega, by omega⟩

/-- C7, witness: five instantly mined blocks at difficulty 4 with
`target_block_time = 10`, `adjustment_interval = 5`: the fast branch fires
and the new difficulty is 5. -/
theorem difficulty_retarget_witness :
    ((5 : ℕ) ≤ fastChain.length ∧ 1 ≤ window_difficulty 5 fastChain
      ∧ window_difficulty 5 fastChain ≤ 10
      ∧ window_time_taken 5 fastChain < expected_window_time 10 5 / 2)
    ∧ adjust_difficulty 10 5 fastChain = min (window_difficulty 5 fastChain + 1) 10
    ∧ window_difficulty 5 fastChain ≤ adjust_difficulty 10 5 fastChain
    ∧ adjust_difficulty 10 5 fastChain = 5 :=
  ⟨⟨by decide, by decide, by decide, by decide⟩,
    ((difficulty_retarget 10 5 fastChain (by decide) (by decide)
      (by decide)).1.1 (by decide)).1,
    ((difficulty_retarget 10 5 fastChain (by decide) (by decide)
      (by decide)).1.1 (by decide)).2,
    by decide⟩

/-! ## Claim C10 — gossip deduplication -/

/-- Processing a message never removes ids from `seen_messages`. -/
theorem process_message_seen_mono (ns : NetState) (m : P2PMessage) :
    ∀ x ∈ ns.seen_messages, x ∈ (process_message ns m).1.seen_messages := by
  intro x hx
  unfold process_message
  by_cases hdup : m.message_id ∈ ns.seen_messages
  · rw [if_pos hdup]
    exact hx
  · rw [if_neg hdup]
    exact List.mem_cons_of_mem _ hx

/-- After processing a message, its id is recorded. -/
theorem process_message_adds (ns : NetState) (m : P2PMessage) :
    m.message_id ∈ (process_message ns m).1.seen_messages := by
  unfold process_message
  by_cases hdup : m.message_id ∈ ns.seen_messages
  · rw [if_pos hdup]
    exact hdup
  · rw [if_neg hdup]
    exact List.mem_cons_self _ _

/-- An envelope whose id is already recorded is neither handled nor
forwarded, wherever it sits in the remaining trace. -/
theorem process_trace_seen (ns : NetState) :
    ∀ (ms : List P2PMessage) (j : ℕ) (mj : P2PMessage), ms[j]? = some mj →
      mj.message_id ∈ ns.seen_messages →
      (process_trace ns ms)[j]? = some (false, false)
  | [], j, mj, hmj, _ => by simp at hmj
  | m :: rest, 0, mj, hmj, hseen => by
    have hm : m = mj := by simpa using hmj
    subst hm
    simp only [process_trace, process_message, if_pos hseen,
      List.getElem?_cons_zero]
  | m :: rest, j + 1, mj, hmj, hseen => by
    simp only [List.getElem?_cons_succ] at hmj
    simp only [process_trace, List.getElem?_cons_succ]
    exact process_trace_seen (process_message ns m).1 rest j mj hmj
      (process_message_seen_mono ns m _ hseen)

/-- C10: over any sequence of received envelopes, an envelope whose
`message_id` already occurred earlier in the sequence is never handled by a
message handler and never forwarded to peers. -/
theorem gossip_dedup (ns : NetState) :
    ∀ (ms : List P2PMessage) (i j : ℕ) (mi mj : P2PMessage), i < j →
      ms[i]? = some mi → ms[j]? = some mj →
      mi.message_id = mj.message_id →
      (process_trace ns ms)[j]? = some (false, false)
  | [], i, j, mi, mj, _, hmi, _, _ => by simp at hmi
  | m :: rest, 0, j, mi, mj, hij, hmi, hmj, hid => by
    obtain ⟨j', rfl⟩ : ∃ j', j = j' + 1 := ⟨j - 1, by omega⟩
    have hm : m = mi := by simpa using hmi
    subst hm
    simp only [List.getElem?_cons_succ] at hmj
    simp only [process_trace, List.getElem?_cons_succ]
    exact process_trace_seen (process_message ns m).1 rest j' mj hmj
      (hid ▸ process_message_adds ns m)
  | m :: rest, i + 1, j, mi, mj, hij, hmi, hmj, hid => by
    obtain ⟨j', rfl⟩ : ∃ j', j = j' + 1 := ⟨j - 1, by omega⟩
    simp only [List.getElem?_cons_succ] at hmi hmj
    simp only [process_trace, List.getElem?_cons_succ]
    exact gossip_dedup (process_message ns m).1 rest i j' mi mj (by omega)
      hmi hmj hid

/-- C10, witness: two envelopes sharing `message_id` — the second is neither
handled nor forwarded. -/
theorem gossip_dedup_witness :
    ((0 : ℕ) < 1 ∧ [msgA, msgB][0]? = some msgA ∧ [msgA, msgB][1]? = some msgB
      ∧ msgA.message_id = msgB.message_id)
    ∧ (process_trace { seen_messages := [] } [msgA, msgB])[1]?
        = some (false, false) :=
  ⟨⟨by decide, by decide, by decide, by decide⟩,
    gossip_dedup { seen_messages := [] } [msgA, msgB] 0 1 msgA msgB
      (by decide) (by decide) (by decide) (by decide)⟩

/-! ## Claim C9 — block serialization round trip -/

/-- A round-trippable transaction object is rebuilt exactly by the
`from_dict` transaction loop. -/
theorem txFromBlockDict_to_dict (tx : Tx) (h : roundTrippable tx) :
    txFromBlockDict tx.to_dict = .ok tx := by
  cases tx with
  | secure t => rfl
  | dictTx d =>
    have hnone : d.signature = none := by
      simpa [roundTrippable, Option.isNone_iff_eq_none] using h
    simp [Tx.to_dict, txFromBlockDict, hnone]
  | multisig t => simp [roundTrippable] at h
  | timelock t => simp [roundTrippable] at h
  | deploy t => simp [roundTrippable] at h
  | call t => simp [roundTrippable] at h

/-- Serializing then deserializing a round-trippable body restores it. -/
theorem mapM_txFromBlockDict (txs : List Tx)
    (h : ∀ tx ∈ txs, roundTrippable tx) :
    (txs.map Tx.to_dict).mapM txFromBlockDict = .ok txs := by
  induction txs with
  | nil => rfl
  | cons t ts ih =>
    rw [List.map_cons, List.mapM_cons,
      txFromBlockDict_to_dict t (h t (List.mem_cons_self t ts)),
      ih (fun tx hx => h tx (List.mem_cons_of_mem _ hx))]
    rfl

/-- C9, amended: `from_dict(to_dict(b)) = b` — field-wise and hash-wise —
for every block whose transactions are basic `SecureTransaction` objects or
plain dict transactions without a `signature` key.  (Advanced transaction
objects do not survive: a multisig becomes a plain dict, a timelock collapses
to a basic transaction, and contract deploy/call dicts make the inherited
`from_dict` raise `KeyError` on the missing `sender`.) -/
theorem block_round_trip (E : CryptoEnv) (b : Block)
    (hgood : ∀ tx ∈ b.transactions, roundTrippable tx) :
    EnhancedBlock.from_dict E b.to_dict = .ok b := by
  have hmap := mapM_txFromBlockDict b.transactions hgood
  simp only [List.mapM] at hmap
  simp [EnhancedBlock.from_dict, Block.to_dict, hmap, Bind.bind, Except.bind]
  rfl

/-- C9, witness: a block holding one signed basic transaction and one plain
genesis dict round-trips exactly. -/
theorem block_round_trip_witness :
    (∀ tx ∈ blockW9.transactions, roundTrippable tx)
    ∧ EnhancedBlock.from_dict E0 blockW9.to_dict = .ok blockW9 :=
  ⟨by decide, block_round_trip E0 blockW9 (by decide)⟩

/-- C9, counterexample: a block containing a multisig transaction object does
not round-trip — its multisig dict (which carries `signatures`, not
`signature`) is reconstructed as a plain dict transaction, so the
transactions field differs from the original. -/
theorem round_trip_multisig_degrades :
    (EnhancedBlock.from_dict E0 blockC9.to_dict).toOption ≠ some blockC9 := by
  decide

/-! ## Claim C2 — block application is not atomic on the peer path -/

/-- C2, failing input: the peer handler accepts `bdC2` past
`_validate_received_block` (both transactions are valid against the *same*
pre-block state), then applies the first transaction to the live state,
finds the second invalid, and returns: the block is rejected (chain and
mempool unchanged) but the first transaction's debit and credit persist. -/
theorem peer_block_rejection_mutates_state :
    (handle_new_block E0 0 nodeC2 bdC2).chain = nodeC2.chain
  ∧ (handle_new_block E0 0 nodeC2 bdC2).mempool = nodeC2.mempool
  ∧ nodeC2.state "xx" = some 10 ∧ nodeC2.state "yy" = none
  ∧ (handle_new_block E0 0 nodeC2 bdC2).state "xx" = some 0
  ∧ (handle_new_block E0 0 nodeC2 bdC2).state "yy" = some 10 :=
  ⟨by decide, by decide, by decide, by decide, by decide, by decide⟩

/-! ## Claim C3 — gossiped transactions are admitted without validation -/

/-- C3, failing input: a gossiped transaction whose sender holds no balance
is invalid against the current state (the API path rejects it and leaves the
mempool untouched), yet `_handle_new_transaction` appends it to the mempool
after nothing but the duplicate-id check. -/
theorem gossip_admits_invalid_transaction :
    (handle_new_transaction nodeC3 txdC3).mempool = [Tx.secure stxC3]
  ∧ isValidTransactionForState E0 0 nodeC3.state nodeC3.contracts
      (Tx.secure stxC3) = false
  ∧ Blockchain.new_transaction E0 0 nodeC3 (Tx.secure stxC3)
      = .error "Invalid transaction" :=
  ⟨by decide, by decide, rfl⟩

/-! ## Claim C4 — longest-chain adoption -/

/-- C4, amended: a peer chain is adopted exactly when its reported length
strictly exceeds the local chain's and `valid_chain` holds; on adoption the
chain is replaced and state and contracts are rebuilt from it; on equal (or
smaller) reported length, or an invalid chain, nothing changes.  The mempool,
however, is never touched — entries invalidated by the adopted chain are
*not* dropped. -/
theorem longest_chain_adoption (E : CryptoEnv) (now : ℚ) (node : Node)
    (peer_chain : List BlockDict) (peer_length : ℤ) :
    (¬ ((node.chain.length : ℤ) < peer_length) →
      handle_chain_response E now node peer_chain peer_length = node)
  ∧ (Blockchain.valid_chain E now peer_chain ≠ some true →
      handle_chain_response E now node peer_chain peer_length = node)
  ∧ (∀ bs, (node.chain.length : ℤ) < peer_length →
      Blockchain.valid_chain E now peer_chain = some true →
      convertChain E peer_chain = .ok bs →
      handle_chain_response E now node peer_chain peer_length =
        { node with
            chain := bs
            state := (Blockchain.rebuild_state bs).1
            contracts := (Blockchain.rebuild_state bs).2.1 })
  ∧ (handle_chain_response E now node peer_chain peer_length).mempool
      = node.mempool := by
  unfold handle_chain_response
  by_cases hlen : (node.chain.length : ℤ) < peer_length
  · rw [if_pos hlen]
    cases hvc : Blockchain.valid_chain E now peer_chain with
    | none =>
      exact ⟨fun h => absurd hlen h, fun _ => rfl,
        fun bs _ hv _ => Option.noConfusion hv, rfl⟩
    | some bv =>
      cases bv with
      | false =>
        exact ⟨fun h => absurd hlen h, fun _ => rfl,
          fun bs _ hv _ => Bool.noConfusion (Option.some.inj hv), rfl⟩
      | true =>
        cases hcc : convertChain E peer_chain with
        | error e =>
          exact ⟨fun h => absurd hlen h, fun _ => rfl,
            fun bs _ _ hconv => Except.noConfusion hconv, rfl⟩
        | ok bs₀ =>
          refine ⟨fun h => absurd hlen h, fun hne => absurd rfl hne,
            fun bs _ _ hconv => ?_, rfl⟩
          have hbs : bs₀ = bs := Except.ok.inj hconv
          subst hbs
          rfl
  · rw [if_neg hlen]
    exact ⟨fun _ => rfl, fun _ => rfl, fun bs h => absurd h hlen, rfl⟩

/-- C4, witness: the two-block peer chain is valid and longer; applying the
theorem at it shows the chain is replaced and state/contracts rebuilt. -/
theorem longest_chain_adoption_witness :
    (((nodeC4.chain.length : ℤ) < 2)
      ∧ Blockchain.valid_chain E0 0 peerChainC4 = some true
      ∧ convertChain E0 peerChainC4 = .ok bsC4)
    ∧ handle_chain_response E0 0 nodeC4 peerChainC4 2 =
        { nodeC4 with
            chain := bsC4
            state := (Blockchain.rebuild_state bsC4).1
            contracts := (Blockchain.rebuild_state bsC4).2.1 } :=
  ⟨⟨by decide, by decide, by rfl⟩,
    (longest_chain_adoption E0 0 nodeC4 peerChainC4 2).2.2.1 bsC4
      (by decide) (by decide) (by rfl)⟩

/-- C4, counterexample: on adoption of the longer valid peer chain, the
mempool entry whose `transaction_id` appears in the adopted chain (an entry
the claim says is dropped) is still in the mempool afterwards. -/
theorem adoption_keeps_invalidated_mempool_entry :
    (handle_chain_response E0 0 nodeC4 peerChainC4 2).chain.length = 2
  ∧ (handle_chain_response E0 0 nodeC4 peerChainC4 2).mempool
      = [.dictTx mempoolTxC4]
  ∧ mempoolTxC4.transaction_id = some "t1"
  ∧ ((handle_chain_response E0 0 nodeC4 peerChainC4 2).chain.flatMap
      (·.transactions)).contains (.dictTx tx1C4) = true
  ∧ tx1C4.transaction_id = some "t1" :=
  ⟨by decide, by decide, by decide, by decide, by decide⟩
